import Mathlib

/-!
Verification of the GPT-2 training script `train_gpt2.py` against its
natural-language specification.  The Python source is shallowly embedded:
pure functions become Lean functions, the stateful data loader becomes
explicit state passing, floating-point scalars become rationals (with the
transcendental library primitives `exp`, `log`, `cos`, `tanh`-GELU and
reciprocal square root abstracted as real/rational function parameters),
and fallible code returns `Except`.
-/

namespace TrainGPT2

/-! ## Token shard loader and streaming batch producer (`DataloaderLite`) -/

/-- Configuration of a `DataloaderLite` instance: micro-batch dimensions,
worker identity, and the shard set for the chosen split.  A shard's content
(`load_tokens`) is the token list itself; tokens are nonnegative ids. -/
structure DLConfig where
  B : ℕ
  T : ℕ
  process_rank : ℕ
  num_processes : ℕ
  shards : List (List ℕ)

/-- `load_tokens(self.shards[i])`: the tokens of shard `i`. -/
def load_tokens (cfg : DLConfig) (i : ℕ) : List ℕ :=
  cfg.shards.getD i []

/-- Mutable cursor state of the producer: active shard index, its loaded
tokens, and the read position. -/
structure DLState where
  current_shard : ℕ
  tokens : List ℕ
  current_position : ℕ

/-- `DataloaderLite.reset`: shard zero, its tokens, position `B*T*rank`. -/
def DLConfig.reset (cfg : DLConfig) : DLState :=
  { current_shard := 0
    tokens := load_tokens cfg 0
    current_position := cfg.B * cfg.T * cfg.process_rank }

/-- `buf.view(B, T)`: reshape a flat list of `B*T` tokens into `B` rows of
length `T` (row `i` is `buf[i*T : i*T+T]`). -/
def view2d (B T : ℕ) (l : List ℕ) : List (List ℕ) :=
  (List.range B).map fun i => (l.drop (i * T)).take T

/-- `DataloaderLite.next_batch`: slice `tokens[pos : pos+B*T+1]`, the inputs
are `buf[:-1]` and the targets `buf[1:]`, both viewed as `(B, T)`; advance
the position by `B*T*num_processes`; if loading the next batch would overrun
the tokens, move to shard `(current_shard+1) % len(shards)` and reset the
position to `B*T*process_rank`. -/
def next_batch (cfg : DLConfig) (s : DLState) :
    (List (List ℕ) × List (List ℕ)) × DLState :=
  let B := cfg.B
  let T := cfg.T
  let buf := (s.tokens.drop s.current_position).take (B * T + 1)
  let x := view2d B T buf.dropLast
  let y := view2d B T (buf.drop 1)
  let pos := s.current_position + B * T * cfg.num_processes
  let s' : DLState :=
    if pos + (B * T * cfg.num_processes + 1) > s.tokens.length then
      let sh := (s.current_shard + 1) % cfg.shards.length
      { current_shard := sh
        tokens := load_tokens cfg sh
        current_position := B * T * cfg.process_rank }
    else
      { current_shard := s.current_shard
        tokens := s.tokens
        current_position := pos }
  ((x, y), s')

/-- Single-worker producer over one synthetic shard `[0, 1, ..., N-1]`. -/
def syntheticCfg (B T N : ℕ) : DLConfig :=
  { B := B, T := T, process_rank := 0, num_processes := 1
    shards := [List.range N] }

/-! ## Startup batch-size configuration -/

/-- `total_batch_size = 524288` tokens. -/
def total_batch_size : ℕ := 524288

/-- Micro-batch size `B = 8`. -/
def B_cfg : ℕ := 8

/-- Sequence length `T = 1024`. -/
def T_cfg : ℕ := 1024

/-- The startup computation of `grad_accum_Steps`: assert that
`total_batch_size` is divisible by `B*T*ddp_world_size`, then divide. -/
def grad_accum_setup (world_size : ℕ) : Except String ℕ :=
  if total_batch_size % (B_cfg * T_cfg * world_size) = 0 then
    Except.ok (total_batch_size / (B_cfg * T_cfg * world_size))
  else
    Except.error "make sure the total batch size is divisible by B * T"

/-! ## Learning-rate scheduler (`get_lr`) -/

/-- `warmup_steps = 715`. -/
def warmup_steps : ℕ := 715

/-- `max_steps = 19073`. -/
def max_steps : ℕ := 19073

/-- `max_lr = 6e-4`. -/
noncomputable def max_lr : ℝ := 6e-4

/-- `min_lr = max_lr * 0.1`. -/
noncomputable def min_lr : ℝ := max_lr * 0.1

/-- `get_lr(it)`: linear warmup for `warmup_steps` steps, `min_lr` from
`max_steps` on, cosine decay in between. -/
noncomputable def get_lr (it : ℕ) : ℝ :=
  if it < warmup_steps then max_lr * (it + 1) / warmup_steps
  else if max_steps ≤ it then min_lr
  else
    let decay_ratio : ℝ := ((it - warmup_steps : ℕ) : ℝ) / ((max_steps - warmup_steps : ℕ) : ℝ)
    let coeff : ℝ := 0.5 * (1 + Real.cos (Real.pi * decay_ratio))
    min_lr + coeff * (max_lr - min_lr)

/-! ## Optimizer configuration (`GPT.configure_optimizers`) -/

/-- A named parameter tensor, abstracted to what `configure_optimizers`
inspects: its name, rank (`p.dim()`), element count (`p.numel()`) and
`requires_grad` flag. -/
structure ParamTensor where
  name : String
  dim : ℕ
  numel : ℕ
  requires_grad : Bool
deriving DecidableEq

/-- One optimizer parameter group with its weight-decay coefficient. -/
structure OptimGroup where
  params : List ParamTensor
  weight_decay : ℚ

/-- The constructed AdamW optimizer: groups and hyperparameters. -/
structure AdamWOptim where
  groups : List OptimGroup
  lr : ℚ
  beta1 : ℚ
  beta2 : ℚ
  eps : ℚ
  fused : Bool

/-- Python's `needle in hay` on strings: substring containment. -/
def pyIn (needle hay : String) : Bool := decide (needle.toList <:+: hay.toList)

/-- `GPT.configure_optimizers`: keep parameters with `requires_grad`,
weight-decay those of rank ≥ 2, no decay for rank < 2, and build AdamW with
`betas=(0.9, 0.95)`, `eps=1e-8`, fused iff available and device is CUDA. -/
def configure_optimizers (named_params : List ParamTensor) (weight_decay lr : ℚ)
    (device : String) (fused_available : Bool) : AdamWOptim :=
  let param_dict := named_params.filter (fun p => p.requires_grad)
  let decay_params := param_dict.filter (fun p => 2 ≤ p.dim)
  let nodecay_params := param_dict.filter (fun p => p.dim < 2)
  let use_fused := fused_available && pyIn "cuda" device
  { groups := [{ params := decay_params, weight_decay := weight_decay },
               { params := nodecay_params, weight_decay := 0 }]
    lr := lr
    beta1 := 0.9
    beta2 := 0.95
    eps := 1e-8
    fused := use_fused }

/-! ## Sampling gate: name resolution of the seed expression -/

/-- Python name lookup: the value bound to `n`, or a `NameError`. -/
def lookupName (env : List (String × ℤ)) (n : String) : Except String ℤ :=
  match env.find? (fun kv => kv.1 == n) with
  | some kv => Except.ok kv.2
  | none => Except.error ("NameError: name " ++ n ++ " is not defined")

/-- The integer-valued global bindings of the training script in scope when
the sampling gate executes.  The script assigns `ddp_rank` (not `dpp_rank`):
its integer globals at that point are exactly these together with the
non-integer ones (`device`, `master_process`, modules, model, loaders). -/
def scriptIntEnv (ddp_rank ddp_local_rank ddp_world_size grad_accum step : ℤ) :
    List (String × ℤ) :=
  [("ddp_rank", ddp_rank), ("ddp_local_rank", ddp_local_rank),
   ("ddp_world_size", ddp_world_size), ("total_batch_size", 524288),
   ("B", 8), ("T", 1024), ("grad_accum_Steps", grad_accum), ("step", step),
   ("num_return_sequences", 4), ("max_length", 32),
   ("val_loss_steps", 20), ("warmup_steps", 715), ("max_steps", 19073)]

/-- The sampling-gate seed expression `42 + dpp_rank` (line 442). -/
def sample_seed (env : List (String × ℤ)) : Except String ℤ :=
  (lookupName env "dpp_rank").map (fun r => 42 + r)

/-- The sampling gate's trigger: `step > 0 and step % 100 == 0`. -/
def samplingGateRuns (step : ℕ) : Bool := decide (0 < step) && decide (step % 100 = 0)

/-! ## Throughput reporting -/

/-- `tokens_processed = B * T * grad_accum_Steps * ddp_world_size`. -/
def tokens_processed (B T ga w : ℕ) : ℕ := B * T * ga * w

/-- The script's `dt = (t1 - t0) * 1000`: elapsed time in milliseconds. -/
def dt_ms (t0 t1 : ℚ) : ℚ := (t1 - t0) * 1000

/-- The script's reported `tokens_per_sec = tokens_processed / dt`. -/
def tokens_per_sec_reported (B T ga w : ℕ) (t0 t1 : ℚ) : ℚ :=
  (tokens_processed B T ga w : ℚ) / dt_ms t0 t1

/-- The throughput the claim describes (tokens per second): tokens
processed divided by the elapsed wall time in seconds, `t1 - t0`. -/
def claimed_tokens_per_sec (B T ga w : ℕ) (t0 t1 : ℚ) : ℚ :=
  (tokens_processed B T ga w : ℚ) / (t1 - t0)

/-! ## Transformer model

Scalars are rationals; the floating-point library primitives (`exp` for
softmax, `log` for cross entropy, tanh-approximated GELU, and reciprocal
square root for layer norm and attention scaling) are abstracted as given
scalar functions, since they do not affect shapes or sharing. -/

/-- The numerical engine's scalar primitives. -/
structure NumPrims where
  exp : ℚ → ℚ
  gelu : ℚ → ℚ
  rsqrt : ℚ → ℚ
  log : ℚ → ℚ

/-- Dot product of two vectors. -/
def dotQ (a b : List ℚ) : ℚ := (List.zipWith (· * ·) a b).sum

/-- Elementwise sum of two matrices (`x + y`). -/
def matAdd (x y : List (List ℚ)) : List (List ℚ) :=
  List.zipWith (List.zipWith (· + ·)) x y

/-- An `nn.Linear` layer: weight of shape `(out, in)` and optional bias. -/
structure LinearP where
  weight : List (List ℚ)
  bias : Option (List ℚ)

/-- Apply a linear layer to one input vector. -/
def linApply (l : LinearP) (x : List ℚ) : List ℚ :=
  match l.bias with
  | none => l.weight.map fun r => dotQ r x
  | some b => List.zipWith (fun r c => dotQ r x + c) l.weight b

/-- An `nn.LayerNorm` layer's affine parameters. -/
structure LayerNormP where
  weight : List ℚ
  bias : List ℚ

/-- Torch's default layer-norm epsilon `1e-5`. -/
def lnEps : ℚ := 1 / 100000

/-- Apply layer normalization to one vector: subtract the mean, scale by
the reciprocal square root of variance plus epsilon, then affine. -/
def lnApply (P : NumPrims) (ln : LayerNormP) (x : List ℚ) : List ℚ :=
  let n : ℚ := x.length
  let mean := x.sum / n
  let varx := (x.map (fun v => (v - mean) ^ 2)).sum / n
  let r := P.rsqrt (varx + lnEps)
  List.zipWith (fun v wb => (v - mean) * r * wb.1 + wb.2) x (ln.weight.zip ln.bias)

/-- Softmax of one row. -/
def softmaxQ (P : NumPrims) (l : List ℚ) : List ℚ :=
  let e := l.map P.exp
  e.map (fun v => v / e.sum)

/-- `CasualSelfAttention` parameters: the fused qkv projection, the output
projection, and the head/embedding dimensions. -/
structure AttnP where
  c_attn : LinearP
  c_proj : LinearP
  n_head : ℕ
  n_embd : ℕ

/-- Slice head `h` (of size `hs`) out of each position's channel vector. -/
def headSlice (m : List (List ℚ)) (h hs : ℕ) : List (List ℚ) :=
  m.map fun r => (r.drop (h * hs)).take hs

/-- Causally-masked scaled dot-product attention output for one head at
position `t`: softmax over the scaled scores against keys `0..t`, then the
weighted sum of the value rows `0..t`
(`F.scaled_dot_product_attention(..., is_causal=True)`). -/
def causalHeadOut (P : NumPrims) (hs : ℕ) (qh kh vh : List (List ℚ)) (t : ℕ) : List ℚ :=
  let qt := qh.getD t []
  let scores := (kh.take (t + 1)).map fun ks => dotQ qt ks * P.rsqrt (hs : ℚ)
  let w := softmaxQ P scores
  (List.range hs).map fun j =>
    (List.zipWith (fun wi vs => wi * vs.getD j 0) w (vh.take (t + 1))).sum

/-- `CasualSelfAttention.forward` on one sequence (`T × C`): fused qkv
projection, split into q, k, v, per-head causal attention, heads
re-assembled side by side, output projection. -/
def attnForward (P : NumPrims) (a : AttnP) (x : List (List ℚ)) : List (List ℚ) :=
  let C := a.n_embd
  let qkv := x.map (linApply a.c_attn)
  let q := qkv.map fun r => r.take C
  let k := qkv.map fun r => (r.drop C).take C
  let v := qkv.map fun r => (r.drop (2 * C)).take C
  let hs := C / a.n_head
  let y := (List.range x.length).map fun t =>
    ((List.range a.n_head).map fun h =>
      causalHeadOut P hs (headSlice q h hs) (headSlice k h hs) (headSlice v h hs) t).flatten
  y.map (linApply a.c_proj)

/-- `MLP` parameters. -/
structure MLPP where
  c_fc : LinearP
  c_proj : LinearP

/-- `MLP.forward`: expansion, GELU, contraction, per position. -/
def mlpForward (P : NumPrims) (m : MLPP) (x : List (List ℚ)) : List (List ℚ) :=
  x.map fun r => linApply m.c_proj ((linApply m.c_fc r).map P.gelu)

/-- One transformer `Block`'s parameters. -/
structure BlockP where
  ln_1 : LayerNormP
  attn : AttnP
  ln_2 : LayerNormP
  mlp : MLPP

/-- `Block.forward`: `x = x + attn(ln_1(x)); x = x + mlp(ln_2(x))`. -/
def blockForward (P : NumPrims) (b : BlockP) (x : List (List ℚ)) : List (List ℚ) :=
  let x1 := matAdd x (attnForward P b.attn (x.map (lnApply P b.ln_1)))
  matAdd x1 (mlpForward P b.mlp (x1.map (lnApply P b.ln_2)))

/-- `GPTConfig` with its dataclass defaults. -/
structure GPTConfig where
  block_size : ℕ := 1024
  vocab_size : ℕ := 50257
  n_layer : ℕ := 12
  n_head : ℕ := 12
  n_embd : ℕ := 768
deriving DecidableEq

/-- The `GPT` module's parameters. -/
structure GPTP where
  config : GPTConfig
  wte : List (List ℚ)
  wpe : List (List ℚ)
  h : List BlockP
  ln_f : LayerNormP
  lm_head : LinearP

/-- `F.cross_entropy` on flattened logits and targets: mean over positions
of the negative log softmax probability of the target id. -/
def crossEntropy (P : NumPrims) (logits : List (List ℚ)) (targets : List ℕ) : ℚ :=
  let ls := List.zipWith (fun row t => - P.log ((softmaxQ P row).getD t 0)) logits targets
  ls.sum / ls.length

/-- `GPT.forward`: assert `T ≤ block_size`, add token and position
embeddings, run the blocks, final layer norm, project to logits with
`lm_head`, and compute the cross-entropy loss exactly when targets are
given. -/
def gptForward (P : NumPrims) (p : GPTP) (idx : List (List ℕ))
    (targets : Option (List (List ℕ))) :
    Except String (List (List (List ℚ)) × Option ℚ) :=
  let T := (idx.getD 0 []).length
  if T ≤ p.config.block_size then
    let pos_emb := (List.range T).map fun t => p.wpe.getD t []
    let logits := idx.map fun row =>
      let tok_emb := row.map fun id => p.wte.getD id []
      let x0 := matAdd tok_emb pos_emb
      let xN := p.h.foldl (fun x b => blockForward P b x) x0
      let xf := xN.map (lnApply P p.ln_f)
      xf.map (linApply p.lm_head)
    let loss := targets.map fun tg => crossEntropy P logits.flatten tg.flatten
    Except.ok (logits, loss)
  else
    Except.error "Cannot forward sequence, length exceeds block size"

/-! ### Well-formedness of the constructed parameters

`GPT.__init__` constructs: `wte` of shape `(vocab_size, n_embd)`, `wpe` of
shape `(block_size, n_embd)`, `n_layer` blocks, a final layer norm over
`n_embd`, and `lm_head = nn.Linear(n_embd, vocab_size, bias=False)` whose
weight is then tied to `wte` by `self.transformer.wte.weight =
self.lm_head.weight`. -/

/-- Shapes of an `nn.Linear(din, dout)` with or without bias. -/
def LinearP.wf (l : LinearP) (din dout : ℕ) (hasBias : Bool) : Prop :=
  l.weight.length = dout ∧ (∀ r ∈ l.weight, r.length = din) ∧
  (match hasBias, l.bias with
   | true, some b => b.length = dout
   | false, none => True
   | _, _ => False)

/-- Shapes of an `nn.LayerNorm(d)`. -/
def LayerNormP.wf (ln : LayerNormP) (d : ℕ) : Prop :=
  ln.weight.length = d ∧ ln.bias.length = d

/-- Shapes of a `CasualSelfAttention(config)`. -/
def AttnP.wf (a : AttnP) (cfg : GPTConfig) : Prop :=
  a.n_head = cfg.n_head ∧ a.n_embd = cfg.n_embd ∧
  LinearP.wf a.c_attn cfg.n_embd (3 * cfg.n_embd) true ∧
  LinearP.wf a.c_proj cfg.n_embd cfg.n_embd true

/-- Shapes of an `MLP(config)`. -/
def MLPP.wf (m : MLPP) (cfg : GPTConfig) : Prop :=
  LinearP.wf m.c_fc cfg.n_embd (4 * cfg.n_embd) true ∧
  LinearP.wf m.c_proj (4 * cfg.n_embd) cfg.n_embd true

/-- Shapes of a `Block(config)`. -/
def BlockP.wf (b : BlockP) (cfg : GPTConfig) : Prop :=
  LayerNormP.wf b.ln_1 cfg.n_embd ∧ AttnP.wf b.attn cfg ∧
  LayerNormP.wf b.ln_2 cfg.n_embd ∧ MLPP.wf b.mlp cfg

/-- Shapes and weight tying established by `GPT.__init__(config)`. -/
def GPTP.wf (p : GPTP) : Prop :=
  p.wte.length = p.config.vocab_size ∧ (∀ r ∈ p.wte, r.length = p.config.n_embd) ∧
  p.wpe.length = p.config.block_size ∧ (∀ r ∈ p.wpe, r.length = p.config.n_embd) ∧
  p.h.length = p.config.n_layer ∧ (∀ b ∈ p.h, BlockP.wf b p.config) ∧
  LayerNormP.wf p.ln_f p.config.n_embd ∧
  p.lm_head.weight = p.wte ∧ p.lm_head.bias = none

/-! ### Concrete configurations -/

/-- The training-path model configuration (line 376):
`GPTConfig(vocab_size=50304)`, the other fields at their defaults. -/
def trainingModelConfig : GPTConfig := { vocab_size := 50304 }

/-- `from_pretrained`'s size table: `(n_layer, n_head, n_embd)` per model
type, `none` for an unknown identifier. -/
def pretrainedConfigArgs (model_type : String) : Option (ℕ × ℕ × ℕ) :=
  if model_type = "gpt2" then some (12, 12, 768)
  else if model_type = "gpt2-medium" then some (24, 16, 1024)
  else if model_type = "gpt2-large" then some (36, 20, 1280)
  else if model_type = "gpt2-xl" then some (48, 25, 1600)
  else none

/-- The configuration `from_pretrained` constructs: the size table entry
with `vocab_size = 50257` and `block_size = 1024` forced. -/
def pretrainedConfig (model_type : String) : Option GPTConfig :=
  (pretrainedConfigArgs model_type).map fun args =>
    { n_layer := args.1, n_head := args.2.1, n_embd := args.2.2
      vocab_size := 50257, block_size := 1024 }

/-- Placeholder scalar primitives for concrete evaluations. -/
def testPrims : NumPrims := ⟨id, id, id, id⟩

/-- An all-zero vector. -/
def zeros (n : ℕ) : List ℚ := List.replicate n 0

/-- An all-zero matrix. -/
def zmat (m n : ℕ) : List (List ℚ) := List.replicate m (zeros n)

/-- A tiny configuration for concrete witnesses. -/
def testConfig : GPTConfig :=
  { block_size := 2, vocab_size := 3, n_layer := 1, n_head := 1, n_embd := 2 }

/-- A zero-initialized block shaped for `testConfig`. -/
def testBlock : BlockP :=
  { ln_1 := ⟨zeros 2, zeros 2⟩
    attn := { c_attn := ⟨zmat 6 2, some (zeros 6)⟩
              c_proj := ⟨zmat 2 2, some (zeros 2)⟩
              n_head := 1, n_embd := 2 }
    ln_2 := ⟨zeros 2, zeros 2⟩
    mlp := { c_fc := ⟨zmat 8 2, some (zeros 8)⟩
             c_proj := ⟨zmat 2 8, some (zeros 2)⟩ } }

/-- A zero-initialized model over `testConfig` with tied head. -/
def testGPT : GPTP :=
  { config := testConfig
    wte := zmat 3 2
    wpe := zmat 2 2
    h := [testBlock]
    ln_f := ⟨zeros 2, zeros 2⟩
    lm_head := ⟨zmat 3 2, none⟩ }

/-- A zero-initialized block shaped for `trainingModelConfig`. -/
def trainBlock : BlockP :=
  { ln_1 := ⟨zeros 768, zeros 768⟩
    attn := { c_attn := ⟨zmat 2304 768, some (zeros 2304)⟩
              c_proj := ⟨zmat 768 768, some (zeros 768)⟩
              n_head := 12, n_embd := 768 }
    ln_2 := ⟨zeros 768, zeros 768⟩
    mlp := { c_fc := ⟨zmat 3072 768, some (zeros 3072)⟩
             c_proj := ⟨zmat 768 3072, some (zeros 768)⟩ } }

/-- A zero-initialized model over `trainingModelConfig` with tied head. -/
def trainGPT : GPTP :=
  { config := trainingModelConfig
    wte := zmat 50304 768
    wpe := zmat 1024 768
    h := List.replicate 12 trainBlock
    ln_f := ⟨zeros 768, zeros 768⟩
    lm_head := ⟨zmat 50304 768, none⟩ }

/-! ## Weight tying (`GPT.__init__`)

Python attributes hold references to tensor objects; the tying line
`self.transformer.wte.weight = self.lm_head.weight` makes the wte attribute
reference the very tensor object the head holds.  We model tensor objects
as slots of a store and module attributes as slot references. -/

/-- The references the module tree holds to parameter storage slots. -/
structure GPTRefs where
  wte_weight : ℕ
  lm_head_weight : ℕ

/-- Parameter storage: slot id to matrix. -/
def Store : Type := ℕ → List (List ℚ)

/-- `GPT.__init__`: `nn.Embedding` and `nn.Linear` allocate two distinct
tensors (slots 0 and 1); then the tying assignment
`self.transformer.wte.weight = self.lm_head.weight` redirects the wte
attribute to the head's slot. -/
def gptInitRefs : GPTRefs :=
  let refs0 : GPTRefs := { wte_weight := 0, lm_head_weight := 1 }
  { refs0 with wte_weight := refs0.lm_head_weight }

/-- In-place write of `row` at row index `v` of the tensor in slot `ref`. -/
def writeRow (st : Store) (ref v : ℕ) (row : List ℚ) : Store :=
  fun r => if r = ref then (st r).set v row else st r

/-- Read row `v` of the tensor in slot `ref`. -/
def readRow (st : Store) (ref v : ℕ) : List ℚ := (st ref).getD v []

/-- The token-embedding row for id `v`: read through the wte reference. -/
def wteRow (st : Store) (v : ℕ) : List ℚ := readRow st gptInitRefs.wte_weight v

/-- The logit of vocabulary row `v` at final hidden state `h`: `lm_head`
is bias-free, so `logits[v] = ⟨W[v], h⟩` with `W` read through the lm_head
reference. -/
def logitRow (st : Store) (h : List ℚ) (v : ℕ) : ℚ :=
  dotQ (readRow st gptInitRefs.lm_head_weight v) h

/-- Mutate a token-embedding row (a write through the wte reference). -/
def setWteRow (st : Store) (v : ℕ) (row : List ℚ) : Store :=
  writeRow st gptInitRefs.wte_weight v row

/-- Mutate an output-projection row (a write through the lm_head
reference). -/
def setLmHeadRow (st : Store) (v : ℕ) (row : List ℚ) : Store :=
  writeRow st gptInitRefs.lm_head_weight v row

/-- Standard basis vector `e_j` of dimension `n`. -/
def unitVec : ℕ → ℕ → List ℚ
  | 0, _ => []
  | n+1, 0 => 1 :: zeros n
  | n+1, j+1 => 0 :: unitVec n j

/-- A concrete 3×2 parameter store for witnesses. -/
def c4Store : Store := fun _ => [[1, 2], [3, 4], [5, 6]]

/-! ## Helper lemmas -/

theorem getD_range {n i : ℕ} (h : i < n) : (List.range n).getD i 0 = i := by
  rw [List.getD_eq_getElem _ _ (by simpa)]; simp

theorem getD_drop (l : List ℕ) {i j : ℕ} (h : i + j < l.length) :
    (l.drop i).getD j 0 = l.getD (i + j) 0 := by
  rw [List.getD_eq_getElem _ _ (by simp; omega), List.getD_eq_getElem _ _ h]
  simp [Nat.add_comm]

theorem getD_take (l : List ℕ) {t j : ℕ} (hj : j < t) (h : j < l.length) :
    (l.take t).getD j 0 = l.getD j 0 := by
  rw [List.getD_eq_getElem _ _ (by simp; omega), List.getD_eq_getElem _ _ h]
  simp

theorem view2d_getD (B T : ℕ) (l : List ℕ) {i : ℕ} (h : i < B) :
    (view2d B T l).getD i [] = (l.drop (i * T)).take T := by
  rw [view2d, List.getD_eq_getElem _ _ (by simpa)]; simp

/-- Element `(i, j)` of `view2d B T l` is `l[i*T + j]`. -/
theorem view2d_elem (B T : ℕ) (l : List ℕ) {i j : ℕ} (hi : i < B) (hj : j < T)
    (hlen : i * T + j < l.length) :
    ((view2d B T l).getD i []).getD j 0 = l.getD (i * T + j) 0 := by
  rw [view2d_getD B T l hi, getD_take _ hj (by simp; omega), getD_drop _ hlen]

/-- Unfolding of the state update made by `next_batch`. -/
theorem next_batch_snd (cfg : DLConfig) (s : DLState) :
    (next_batch cfg s).2 =
      if s.current_position + cfg.B * cfg.T * cfg.num_processes
          + (cfg.B * cfg.T * cfg.num_processes + 1) > s.tokens.length then
        { current_shard := (s.current_shard + 1) % cfg.shards.length
          tokens := load_tokens cfg ((s.current_shard + 1) % cfg.shards.length)
          current_position := cfg.B * cfg.T * cfg.process_rank }
      else
        { current_shard := s.current_shard
          tokens := s.tokens
          current_position := s.current_position + cfg.B * cfg.T * cfg.num_processes } :=
  rfl

/-- In the cosine region, `get_lr` takes the cosine-decay form. -/
theorem get_lr_cosine {it : ℕ} (h1 : warmup_steps ≤ it) (h2 : it < max_steps) :
    get_lr it = min_lr + 0.5 * (1 + Real.cos (Real.pi *
        (((it - warmup_steps : ℕ) : ℝ) / ((max_steps - warmup_steps : ℕ) : ℝ))))
      * (max_lr - min_lr) := by
  rw [get_lr, if_neg (by omega), if_neg (by omega)]

theorem diff_lr_nonneg : (0 : ℝ) ≤ max_lr - min_lr := by
  rw [max_lr, min_lr, max_lr]; norm_num

theorem ratio_nonneg (it : ℕ) :
    0 ≤ ((it - warmup_steps : ℕ) : ℝ) / ((max_steps - warmup_steps : ℕ) : ℝ) :=
  div_nonneg (Nat.cast_nonneg _) (Nat.cast_nonneg _)

theorem ratio_le_one {it : ℕ} (h2 : it < max_steps) :
    ((it - warmup_steps : ℕ) : ℝ) / ((max_steps - warmup_steps : ℕ) : ℝ) ≤ 1 := by
  have hden : (0 : ℝ) < ((max_steps - warmup_steps : ℕ) : ℝ) := by
    rw [max_steps, warmup_steps]; norm_num
  rw [div_le_one hden]
  exact_mod_cast (by omega : (it - warmup_steps : ℕ) ≤ (max_steps - warmup_steps : ℕ))

/-- `get_lr` is antitone inside the cosine region. -/
theorem cosine_part_mono {s t : ℕ} (hs : warmup_steps ≤ s) (hst : s ≤ t)
    (ht : t < max_steps) : get_lr t ≤ get_lr s := by
  have hsm : s < max_steps := lt_of_le_of_lt (by omega) ht
  rw [get_lr_cosine hs (by omega), get_lr_cosine (by omega) ht]
  have hmono : ((s - warmup_steps : ℕ) : ℝ) / ((max_steps - warmup_steps : ℕ) : ℝ)
      ≤ ((t - warmup_steps : ℕ) : ℝ) / ((max_steps - warmup_steps : ℕ) : ℝ) := by
    have hden : (0 : ℝ) < ((max_steps - warmup_steps : ℕ) : ℝ) := by
      rw [max_steps, warmup_steps]; norm_num
    exact (div_le_div_iff_of_pos_right hden).mpr (Nat.cast_le.mpr (by omega))
  have hcos : Real.cos (Real.pi *
        (((t - warmup_steps : ℕ) : ℝ) / ((max_steps - warmup_steps : ℕ) : ℝ)))
      ≤ Real.cos (Real.pi *
        (((s - warmup_steps : ℕ) : ℝ) / ((max_steps - warmup_steps : ℕ) : ℝ))) := by
    apply Real.cos_le_cos_of_nonneg_of_le_pi
    · exact mul_nonneg Real.pi_pos.le (ratio_nonneg s)
    · calc Real.pi * (((t - warmup_steps : ℕ) : ℝ) / ((max_steps - warmup_steps : ℕ) : ℝ))
          ≤ Real.pi * 1 := mul_le_mul_of_nonneg_left (ratio_le_one ht) Real.pi_pos.le
        _ = Real.pi := mul_one _
    · exact mul_le_mul_of_nonneg_left hmono Real.pi_pos.le
  nlinarith [diff_lr_nonneg]

/-- The cosine region never goes below `min_lr`. -/
theorem min_le_cosine {s : ℕ} (hs : warmup_steps ≤ s) (hsm : s < max_steps) :
    min_lr ≤ get_lr s := by
  rw [get_lr_cosine hs hsm]
  have h1 : -1 ≤ Real.cos (Real.pi *
      (((s - warmup_steps : ℕ) : ℝ) / ((max_steps - warmup_steps : ℕ) : ℝ))) :=
    Real.neg_one_le_cos _
  nlinarith [diff_lr_nonneg]

/-! ### Shape lemmas for the forward pass -/

theorem linApply_length {l : LinearP} {din dout : ℕ} {hb : Bool}
    (h : l.wf din dout hb) (x : List ℚ) : (linApply l x).length = dout := by
  rcases h with ⟨hw, _, hbias⟩
  cases hbl : l.bias with
  | none => simp [linApply, hbl, hw]
  | some b =>
    cases hb with
    | false => rw [hbl] at hbias; simp at hbias
    | true => rw [hbl] at hbias; simp [linApply, hbl, hw, hbias]

theorem lnApply_length (P : NumPrims) {ln : LayerNormP} {d : ℕ} (h : ln.wf d)
    {x : List ℚ} (hx : x.length = d) : (lnApply P ln x).length = d := by
  rcases h with ⟨hw, hb⟩
  simp [lnApply, hw, hb, hx]

theorem causalHeadOut_length (P : NumPrims) (hs : ℕ) (qh kh vh : List (List ℚ))
    (t : ℕ) : (causalHeadOut P hs qh kh vh t).length = hs := by
  simp [causalHeadOut]

theorem attnForward_shape (P : NumPrims) {a : AttnP} {cfg : GPTConfig}
    (h : a.wf cfg) (x : List (List ℚ)) :
    (attnForward P a x).length = x.length ∧
    ∀ r ∈ attnForward P a x, r.length = cfg.n_embd := by
  rcases h with ⟨_, _, _, hproj⟩
  constructor
  · simp [attnForward]
  · intro r hr
    simp only [attnForward, List.mem_map] at hr
    obtain ⟨y0, _, rfl⟩ := hr
    exact linApply_length hproj y0

theorem mlpForward_shape (P : NumPrims) {m : MLPP} {cfg : GPTConfig}
    (h : m.wf cfg) (x : List (List ℚ)) :
    (mlpForward P m x).length = x.length ∧
    ∀ r ∈ mlpForward P m x, r.length = cfg.n_embd := by
  rcases h with ⟨_, hproj⟩
  constructor
  · simp [mlpForward]
  · intro r hr
    simp only [mlpForward, List.mem_map] at hr
    obtain ⟨y0, _, rfl⟩ := hr
    exact linApply_length hproj _

theorem matAdd_length (x y : List (List ℚ)) :
    (matAdd x y).length = min x.length y.length := by
  simp [matAdd]

theorem matAdd_rows {x y : List (List ℚ)} {C : ℕ} (hx : ∀ r ∈ x, r.length = C)
    (hy : ∀ r ∈ y, r.length = C) : ∀ r ∈ matAdd x y, r.length = C := by
  induction x generalizing y with
  | nil => intro r hr; simp [matAdd] at hr
  | cons a as ih =>
    intro r hr
    cases y with
    | nil => simp [matAdd] at hr
    | cons b bs =>
      simp only [matAdd, List.zipWith_cons_cons, List.mem_cons] at hr
      rcases hr with rfl | hr
      · simp [hx a (by simp), hy b (by simp)]
      · exact ih (fun r h => hx r (by simp [h])) (fun r h => hy r (by simp [h])) r hr

theorem blockForward_shape (P : NumPrims) {b : BlockP} {cfg : GPTConfig}
    (hb : b.wf cfg) {x : List (List ℚ)}
    (hlen : ∀ r ∈ x, r.length = cfg.n_embd) :
    (blockForward P b x).length = x.length ∧
    ∀ r ∈ blockForward P b x, r.length = cfg.n_embd := by
  rcases hb with ⟨hln1, hattn, hln2, hmlp⟩
  have hatt := attnForward_shape P hattn (x.map (lnApply P b.ln_1))
  have hx1len : (matAdd x (attnForward P b.attn (x.map (lnApply P b.ln_1)))).length
      = x.length := by
    rw [matAdd_length, hatt.1, List.length_map, Nat.min_self]
  have hx1rows : ∀ r ∈ matAdd x (attnForward P b.attn (x.map (lnApply P b.ln_1))),
      r.length = cfg.n_embd := matAdd_rows hlen hatt.2
  set x1 := matAdd x (attnForward P b.attn (x.map (lnApply P b.ln_1))) with hx1
  have hmlps := mlpForward_shape P hmlp (x1.map (lnApply P b.ln_2))
  constructor
  · show (matAdd x1 _).length = _
    rw [matAdd_length, hmlps.1, List.length_map, Nat.min_self, hx1len]
  · exact matAdd_rows hx1rows hmlps.2

theorem foldl_blocks_shape (P : NumPrims) {cfg : GPTConfig} {bs : List BlockP}
    (hwf : ∀ b ∈ bs, b.wf cfg) {x : List (List ℚ)}
    (hlen : ∀ r ∈ x, r.length = cfg.n_embd) :
    (bs.foldl (fun x b => blockForward P b x) x).length = x.length ∧
    ∀ r ∈ bs.foldl (fun x b => blockForward P b x) x, r.length = cfg.n_embd := by
  induction bs generalizing x with
  | nil => exact ⟨rfl, hlen⟩
  | cons b bs ih =>
    have hb := blockForward_shape P (hwf b (by simp)) hlen
    have := ih (fun b h => hwf b (by simp [h])) hb.2
    exact ⟨by simpa [hb.1] using this.1, this.2⟩

/-- The tied `lm_head` is a bias-free linear map from `n_embd` to
`vocab_size`. -/
theorem lm_head_wf {p : GPTP} (hwf : p.wf) :
    p.lm_head.wf p.config.n_embd p.config.vocab_size false := by
  obtain ⟨hwte_len, hwte_rows, _, _, _, _, _, htie, hbias⟩ := hwf
  refine ⟨by rw [htie, hwte_len], by rw [htie]; exact hwte_rows, ?_⟩
  rw [hbias]
  trivial

theorem getD_mem_of_lt {l : List (List ℚ)} {i : ℕ} (h : i < l.length) :
    l.getD i [] ∈ l := by
  rw [List.getD_eq_getElem _ _ h]
  exact List.getElem_mem h

/-- On a rectangular id matrix with valid ids and `T ≤ block_size`, the
forward pass succeeds with logits of shape `(B, T, vocab_size)` and a loss
exactly when targets are given. -/
theorem gptForward_ok_shape (P : NumPrims) {p : GPTP} (hwf : p.wf)
    {idx : List (List ℕ)} (targets : Option (List (List ℕ)))
    (hrect : ∀ row ∈ idx, row.length = (idx.getD 0 []).length)
    (hids : ∀ row ∈ idx, ∀ id ∈ row, id < p.config.vocab_size)
    (hT : (idx.getD 0 []).length ≤ p.config.block_size) :
    ∃ logits loss, gptForward P p idx targets = Except.ok (logits, loss) ∧
      logits.length = idx.length ∧
      (∀ l ∈ logits, l.length = (idx.getD 0 []).length ∧
        ∀ r ∈ l, r.length = p.config.vocab_size) ∧
      (loss.isSome ↔ targets.isSome) := by
  obtain ⟨hwte_len, hwte_rows, hwpe_len, hwpe_rows, hh_len, hh_wf, hlnf, htie, hbias⟩ :=
    hwf
  have hlm := lm_head_wf ⟨hwte_len, hwte_rows, hwpe_len, hwpe_rows, hh_len, hh_wf,
    hlnf, htie, hbias⟩
  refine ⟨_, _, by rw [gptForward, if_pos hT], List.length_map _ _, ?_, ?_⟩
  · intro l hl
    simp only [List.mem_map] at hl
    obtain ⟨row, hrow, rfl⟩ := hl
    have htok_rows : ∀ r ∈ row.map (fun id => p.wte.getD id []),
        r.length = p.config.n_embd := by
      intro r hr
      simp only [List.mem_map] at hr
      obtain ⟨id, hid, rfl⟩ := hr
      exact hwte_rows _ (getD_mem_of_lt (by rw [hwte_len]; exact hids row hrow id hid))
    have hpos_rows : ∀ r ∈ (List.range (idx.getD 0 []).length).map
        (fun t => p.wpe.getD t []), r.length = p.config.n_embd := by
      intro r hr
      simp only [List.mem_map, List.mem_range] at hr
      obtain ⟨t, ht, rfl⟩ := hr
      exact hwpe_rows _ (getD_mem_of_lt (by rw [hwpe_len]; omega))
    have hx0_len : (matAdd (row.map fun id => p.wte.getD id [])
        ((List.range (idx.getD 0 []).length).map fun t => p.wpe.getD t [])).length
        = (idx.getD 0 []).length := by
      rw [matAdd_length, List.length_map, List.length_map, List.length_range,
        hrect row hrow, Nat.min_self]
    have hx0_rows := matAdd_rows htok_rows hpos_rows
    have hfold := foldl_blocks_shape P hh_wf hx0_rows
    constructor
    · rw [List.length_map, List.length_map, hfold.1, hx0_len]
    · intro r hr
      simp only [List.mem_map] at hr
      obtain ⟨v, hv, rfl⟩ := hr
      exact linApply_length hlm _
  · simp

/-- With `T` exceeding `block_size`, the forward pass fails. -/
theorem gptForward_error (P : NumPrims) (p : GPTP) (idx : List (List ℕ))
    (targets : Option (List (List ℕ)))
    (hT : ¬ (idx.getD 0 []).length ≤ p.config.block_size) :
    gptForward P p idx targets
      = Except.error "Cannot forward sequence, length exceeds block size" := by
  rw [gptForward, if_neg hT]

theorem testGPT_wf : testGPT.wf := by
  refine ⟨?_, ?_, ?_, ?_, ?_, ?_, ⟨?_, ?_⟩, rfl, rfl⟩ <;>
    simp [testGPT, testBlock, testConfig, zmat, zeros, BlockP.wf, AttnP.wf,
      MLPP.wf, LinearP.wf, LayerNormP.wf, List.mem_replicate, GPTP.wf]

theorem zeros_length (n : ℕ) : (zeros n).length = n := by
  rw [zeros, List.length_replicate]

theorem zmat_length (m n : ℕ) : (zmat m n).length = m := by
  rw [zmat, List.length_replicate]

theorem zmat_rows (m n : ℕ) : ∀ r ∈ zmat m n, r.length = n := by
  intro r hr
  rw [zmat, List.mem_replicate] at hr
  rw [hr.2, zeros_length]

theorem zlin_wf (din dout : ℕ) : LinearP.wf ⟨zmat dout din, some (zeros dout)⟩ din dout true :=
  ⟨zmat_length _ _, zmat_rows _ _, zeros_length _⟩

theorem trainBlock_wf : trainBlock.wf trainingModelConfig :=
  ⟨⟨zeros_length _, zeros_length _⟩,
   ⟨rfl, rfl, zlin_wf 768 2304, zlin_wf 768 768⟩,
   ⟨zeros_length _, zeros_length _⟩,
   ⟨zlin_wf 768 3072, zlin_wf 3072 768⟩⟩

theorem trainGPT_wf : trainGPT.wf := by
  refine ⟨zmat_length _ _, zmat_rows _ _, zmat_length _ _, zmat_rows _ _,
    List.length_replicate _ _, ?_, ⟨zeros_length _, zeros_length _⟩, rfl, rfl⟩
  intro b hb
  have hb2 : b ∈ List.replicate 12 trainBlock := hb
  rw [List.mem_replicate] at hb2
  rw [hb2.2]
  exact trainBlock_wf

/-! ### Lemmas for weight tying -/

theorem dotQ_zeros (r : List ℚ) (n : ℕ) : dotQ r (zeros n) = 0 := by
  induction r generalizing n with
  | nil => simp [dotQ]
  | cons a as ih =>
    cases n with
    | zero => simp [dotQ, zeros]
    | succ m =>
      have h0 : zeros (m + 1) = 0 :: zeros m := rfl
      rw [h0]
      simp only [dotQ, List.zipWith_cons_cons, List.sum_cons, mul_zero, zero_add]
      exact ih m

theorem dotQ_unitVec {r : List ℚ} {n j : ℕ} (hr : r.length = n) (hj : j < n) :
    dotQ r (unitVec n j) = r.getD j 0 := by
  induction r generalizing n j with
  | nil => simp at hr; omega
  | cons a as ih =>
    cases n with
    | zero => omega
    | succ m =>
      cases j with
      | zero =>
        show dotQ (a :: as) (1 :: zeros m) = a
        simp only [dotQ, List.zipWith_cons_cons, List.sum_cons, mul_one]
        rw [show (List.zipWith (· * ·) as (zeros m)).sum = dotQ as (zeros m) from rfl,
          dotQ_zeros, add_zero]
      | succ i =>
        show dotQ (a :: as) (0 :: unitVec m i) = as.getD i 0
        simp only [dotQ, List.zipWith_cons_cons, List.sum_cons, mul_zero, zero_add]
        exact ih (by simpa using hr) (by omega)

theorem exists_getD_ne {xs ys : List ℚ} (hlen : xs.length = ys.length)
    (hne : xs ≠ ys) : ∃ j, j < xs.length ∧ xs.getD j 0 ≠ ys.getD j 0 := by
  by_contra hc
  push_neg at hc
  apply hne
  apply List.ext_getElem hlen
  intro i h1 h2
  have hx := hc i h1
  rw [List.getD_eq_getElem _ _ h1, List.getD_eq_getElem _ _ h2] at hx
  exact hx

theorem set_getD {l : List (List ℚ)} {v : ℕ} (row : List ℚ) (hv : v < l.length) :
    (l.set v row).getD v [] = row := by
  rw [List.getD_eq_getElem _ _ (by simpa), List.getElem_set_self]

/-! ## Claim theorems -/

/-- C1: for every shard holding the token stream `[0, 1, ..., N-1]` with
`N ≥ B*T+1`, a single-worker producer's first `next_batch()` returns the
input equal to the first `B*T` stream tokens reshaped to `(B, T)`, the
target equal to the stream shifted one position ahead (also reshaped to
`(B, T)`), and elementwise `input[i][j]` is stream token `i*T+j` while
`target[i][j]` is the stream token one position after it. -/
theorem C1_first_batch_synthetic (B T N : ℕ) (hN : B * T + 1 ≤ N) :
    (next_batch (syntheticCfg B T N) (syntheticCfg B T N).reset).1.1
      = view2d B T ((List.range N).take (B * T)) ∧
    (next_batch (syntheticCfg B T N) (syntheticCfg B T N).reset).1.2
      = view2d B T (((List.range N).drop 1).take (B * T)) ∧
    ∀ i j : ℕ, i < B → j < T →
      ((next_batch (syntheticCfg B T N) (syntheticCfg B T N).reset).1.1.getD i []).getD j 0
          = (List.range N).getD (i * T + j) 0 ∧
      ((next_batch (syntheticCfg B T N) (syntheticCfg B T N).reset).1.2.getD i []).getD j 0
          = (List.range N).getD (i * T + j + 1) 0 := by
  have hBT : B * T ≤ N := by omega
  have hidx : ∀ i j : ℕ, i < B → j < T → i * T + j < B * T := fun i j hi hj =>
    calc i * T + j < (i + 1) * T := by rw [Nat.succ_mul]; omega
    _ ≤ B * T := Nat.mul_le_mul_right T hi
  have hbuf : (((syntheticCfg B T N).reset.tokens).drop
        ((syntheticCfg B T N).reset.current_position)).take (B * T + 1)
      = List.range (B * T + 1) := by
    show ((List.range N).drop (B * T * 0)).take (B * T + 1) = _
    rw [Nat.mul_zero, List.drop_zero, List.take_range]
    congr 1
    omega
  have hx : (next_batch (syntheticCfg B T N) (syntheticCfg B T N).reset).1.1
      = view2d B T (List.range (B * T)) := by
    show view2d _ _ (((((syntheticCfg B T N).reset.tokens).drop
        ((syntheticCfg B T N).reset.current_position)).take (B * T + 1)).dropLast) = _
    rw [hbuf]
    show view2d B T _ = _
    simp [List.range_succ]
  have hy : (next_batch (syntheticCfg B T N) (syntheticCfg B T N).reset).1.2
      = view2d B T ((List.range (B * T + 1)).drop 1) := by
    show view2d _ _ (((((syntheticCfg B T N).reset.tokens).drop
        ((syntheticCfg B T N).reset.current_position)).take (B * T + 1)).drop 1) = _
    rw [hbuf]
    show view2d B T _ = _
    rfl
  have hrangeN : List.range (B * T + 1) = (List.range N).take (B * T + 1) := by
    rw [List.take_range]; congr 1; omega
  refine ⟨by rw [hx, List.take_range]; congr 2; omega, ⟨?_, ?_⟩⟩
  · rw [hy]
    congr 1
    rw [hrangeN, List.drop_take]
    norm_num
  · intro i j hi hj
    have h1 : i * T + j < B * T := hidx i j hi hj
    constructor
    · rw [hx, view2d_elem _ _ _ hi hj (by simpa), getD_range (by omega),
        getD_range (by omega)]
    · rw [hy, view2d_elem _ _ _ hi hj (by simpa using h1)]
      rw [getD_drop _ (by simp; omega), getD_range (by omega), getD_range (by omega)]
      omega

/-- C1 witness: with `B = 1`, `T = 4` and stream `[0, 1, 2, 3, 4]`, the
first batch is input `[[0,1,2,3]]` and target `[[1,2,3,4]]`. -/
theorem C1_first_batch_synthetic_witness :
    1 * 4 + 1 ≤ 5 ∧
    (next_batch (syntheticCfg 1 4 5) (syntheticCfg 1 4 5).reset).1.1
        = view2d 1 4 ((List.range 5).take (1 * 4)) ∧
    view2d 1 4 ((List.range 5).take (1 * 4)) = [[0, 1, 2, 3]] ∧
    (next_batch (syntheticCfg 1 4 5) (syntheticCfg 1 4 5).reset).1.2
        = view2d 1 4 (((List.range 5).drop 1).take (1 * 4)) ∧
    view2d 1 4 (((List.range 5).drop 1).take (1 * 4)) = [[1, 2, 3, 4]] :=
  ⟨by decide, (C1_first_batch_synthetic 1 4 5 (by decide)).1, by decide,
    (C1_first_batch_synthetic 1 4 5 (by decide)).2.1, by decide⟩

/-- C3: the producer's cursor wraps to shard `(current_shard+1) mod
num_shards` with position reset to `B*T*worker_rank` exactly when advancing
the cursor would exceed the shard length; and for a worker whose shard has
length exactly `B*T+1`, already the first call wraps, so the second call to
`next_batch()` reads from the next shard at position `B*T*rank`. -/
theorem C3_cursor_rollover (cfg : DLConfig) (s : DLState)
    (hBT : 1 ≤ cfg.B * cfg.T) (hrank : cfg.process_rank < cfg.num_processes) :
    (((next_batch cfg s).2.current_shard = (s.current_shard + 1) % cfg.shards.length ∧
      (next_batch cfg s).2.tokens = load_tokens cfg ((s.current_shard + 1) % cfg.shards.length) ∧
      (next_batch cfg s).2.current_position = cfg.B * cfg.T * cfg.process_rank)
      ↔ s.current_position + cfg.B * cfg.T * cfg.num_processes
          + (cfg.B * cfg.T * cfg.num_processes + 1) > s.tokens.length) ∧
    (s = cfg.reset → s.tokens.length = cfg.B * cfg.T + 1 →
      (next_batch cfg s).2.current_shard = 1 % cfg.shards.length ∧
      (next_batch cfg s).2.tokens = load_tokens cfg (1 % cfg.shards.length) ∧
      (next_batch cfg s).2.current_position = cfg.B * cfg.T * cfg.process_rank) := by
  have hmul : cfg.B * cfg.T * (cfg.process_rank + 1) ≤ cfg.B * cfg.T * cfg.num_processes :=
    Nat.mul_le_mul_left _ hrank
  rw [Nat.mul_add, Nat.mul_one] at hmul
  constructor
  · rw [next_batch_snd]
    by_cases hcond : s.current_position + cfg.B * cfg.T * cfg.num_processes
        + (cfg.B * cfg.T * cfg.num_processes + 1) > s.tokens.length
    · rw [if_pos hcond]
      simp [hcond]
    · rw [if_neg hcond]
      simp only [iff_false, not_and, hcond]
      intro _ _
      omega
  · intro hs hlen
    subst hs
    have hcond : (cfg.reset).current_position + cfg.B * cfg.T * cfg.num_processes
        + (cfg.B * cfg.T * cfg.num_processes + 1) > (cfg.reset).tokens.length := by
      rw [hlen]
      show cfg.B * cfg.T * cfg.process_rank + _ + _ > _
      omega
    rw [next_batch_snd, if_pos hcond]
    exact ⟨rfl, rfl, rfl⟩

/-- C3 witness: a single worker with `B = 1`, `T = 4` over two shards whose
first shard has length exactly `B*T+1 = 5`: the first `next_batch()` call
rolls the cursor over to shard 1 with position reset to `B*T*rank = 0`. -/
theorem C3_cursor_rollover_witness :
    1 ≤ (1 : ℕ) * 4 ∧ (0 : ℕ) < 1 ∧
    ((next_batch ⟨1, 4, 0, 1, [[10, 11, 12, 13, 14], [20, 21, 22, 23, 24]]⟩
        (DLConfig.reset ⟨1, 4, 0, 1, [[10, 11, 12, 13, 14], [20, 21, 22, 23, 24]]⟩)).2.current_shard
      = 1 % (DLConfig.shards ⟨1, 4, 0, 1, [[10, 11, 12, 13, 14], [20, 21, 22, 23, 24]]⟩).length ∧
    (next_batch ⟨1, 4, 0, 1, [[10, 11, 12, 13, 14], [20, 21, 22, 23, 24]]⟩
        (DLConfig.reset ⟨1, 4, 0, 1, [[10, 11, 12, 13, 14], [20, 21, 22, 23, 24]]⟩)).2.tokens
      = load_tokens ⟨1, 4, 0, 1, [[10, 11, 12, 13, 14], [20, 21, 22, 23, 24]]⟩
          (1 % (DLConfig.shards ⟨1, 4, 0, 1, [[10, 11, 12, 13, 14], [20, 21, 22, 23, 24]]⟩).length) ∧
    (next_batch ⟨1, 4, 0, 1, [[10, 11, 12, 13, 14], [20, 21, 22, 23, 24]]⟩
        (DLConfig.reset ⟨1, 4, 0, 1, [[10, 11, 12, 13, 14], [20, 21, 22, 23, 24]]⟩)).2.current_position
      = 1 * 4 * 0) :=
  ⟨by decide, by decide,
    (C3_cursor_rollover ⟨1, 4, 0, 1, [[10, 11, 12, 13, 14], [20, 21, 22, 23, 24]]⟩
      (DLConfig.reset ⟨1, 4, 0, 1, [[10, 11, 12, 13, 14], [20, 21, 22, 23, 24]]⟩)
      (by decide) (by decide)).2 rfl (by decide)⟩

/-- C6: at startup the orchestrator fails iff `total_batch_size` is not
evenly divisible by `B*T*world_size`; when it succeeds, the resulting
`grad_accum_Steps` satisfies
`grad_accum_Steps * B * T * world_size = total_batch_size`. -/
theorem C6_grad_accum_invariant (world_size : ℕ) :
    ((∃ e, grad_accum_setup world_size = Except.error e) ↔
      ¬ (B_cfg * T_cfg * world_size ∣ total_batch_size)) ∧
    ∀ g, grad_accum_setup world_size = Except.ok g →
      g * B_cfg * T_cfg * world_size = total_batch_size := by
  constructor
  · unfold grad_accum_setup
    split_ifs with h
    · simp [Nat.dvd_iff_mod_eq_zero, h]
    · simpa [Nat.dvd_iff_mod_eq_zero] using h
  · intro g hg
    unfold grad_accum_setup at hg
    split_ifs at hg with h
    · have hg2 : g = total_batch_size / (B_cfg * T_cfg * world_size) := by
        injection hg with h2
        exact h2.symm
      have hdvd : (B_cfg * T_cfg * world_size) ∣ total_batch_size :=
        Nat.dvd_iff_mod_eq_zero.mpr h
      calc g * B_cfg * T_cfg * world_size
          = g * (B_cfg * T_cfg * world_size) := by ring
        _ = total_batch_size := by rw [hg2]; exact Nat.div_mul_cancel hdvd

/-- C6 witness: with one worker the startup succeeds, `grad_accum_Steps`
is 64, and `64 * 8 * 1024 * 1 = 524288`. -/
theorem C6_grad_accum_invariant_witness :
    grad_accum_setup 1 = Except.ok 64 ∧ 64 * B_cfg * T_cfg * 1 = total_batch_size :=
  ⟨by rfl, (C6_grad_accum_invariant 1).2 64 (by rfl)⟩

/-- C2: the learning-rate schedule satisfies: linear warmup value
`max_lr*(step+1)/warmup_steps` for `step < warmup_steps` (so
`lr(0) = max_lr/warmup_steps`); `lr(warmup_steps) = max_lr`; constant
`min_lr = 0.1*max_lr` for `step ≥ max_steps`; the cosine-decay formula
`min_lr + 0.5*(1+cos(pi*(step-warmup)/(max-warmup)))*(max_lr-min_lr)` in
between; and `lr` is monotonically non-increasing on `step ≥ warmup_steps`. -/
theorem C2_lr_schedule :
    (∀ step : ℕ, step < warmup_steps →
        get_lr step = max_lr * (step + 1) / warmup_steps) ∧
    get_lr 0 = max_lr / warmup_steps ∧
    get_lr warmup_steps = max_lr ∧
    (∀ step : ℕ, max_steps ≤ step → get_lr step = min_lr) ∧
    min_lr = 0.1 * max_lr ∧
    (∀ step : ℕ, warmup_steps ≤ step → step < max_steps →
        get_lr step = min_lr + 0.5 * (1 + Real.cos (Real.pi * ((step : ℝ) - warmup_steps)
            / ((max_steps : ℝ) - warmup_steps))) * (max_lr - min_lr)) ∧
    ∀ s t : ℕ, warmup_steps ≤ s → s ≤ t → get_lr t ≤ get_lr s := by
  have hwm : warmup_steps < max_steps := by rw [warmup_steps, max_steps]; omega
  refine ⟨?_, ?_, ?_, ?_, ?_, ?_, ?_⟩
  · intro step h
    rw [get_lr, if_pos h]
  · have h0 : (0 : ℕ) < warmup_steps := by rw [warmup_steps]; omega
    rw [get_lr, if_pos h0]
    norm_num
  · rw [get_lr, if_neg (lt_irrefl _), if_neg (by omega)]
    simp only [Nat.sub_self, Nat.cast_zero, zero_div, mul_zero, Real.cos_zero]
    ring
  · intro step h
    rw [get_lr, if_neg (by omega), if_pos h]
  · rw [min_lr]; ring
  · intro step h1 h2
    rw [get_lr_cosine h1 h2, Nat.cast_sub h1, Nat.cast_sub hwm.le, mul_div_assoc]
  · intro s t hs hst
    by_cases ht : t < max_steps
    · exact cosine_part_mono hs hst ht
    · have hlt : get_lr t = min_lr := by rw [get_lr, if_neg (by omega), if_pos (by omega)]
      rw [hlt]
      by_cases hsm : s < max_steps
      · exact min_le_cosine hs hsm
      · rw [get_lr, if_neg (by omega), if_pos (by omega)]

/-- C2 witness: concrete instances — `lr(0) = max_lr/warmup_steps` and
`lr(max_steps) ≤ lr(warmup_steps)` (non-increase across the decay span). -/
theorem C2_lr_schedule_witness :
    (0 : ℕ) < warmup_steps ∧ warmup_steps ≤ max_steps ∧
    get_lr 0 = max_lr / warmup_steps ∧ get_lr max_steps ≤ get_lr warmup_steps :=
  ⟨by decide, by decide, C2_lr_schedule.2.1,
    C2_lr_schedule.2.2.2.2.2.2 warmup_steps max_steps (le_refl _) (by decide)⟩

/-- C7: `configure_optimizers` partitions the trainable parameters into
exactly two groups — rank ≥ 2 into the weight-decay group, rank < 2 into
the zero-decay group, each trainable parameter in exactly one group (the
two groups together are a permutation of the trainable parameters) — and
builds AdamW with betas `(0.9, 0.95)`, eps `1e-8`, fused exactly when the
implementation supports it and the device string contains `"cuda"`. -/
theorem C7_configure_optimizers (params : List ParamTensor) (wd lr : ℚ)
    (device : String) (fused_available : Bool) :
    (configure_optimizers params wd lr device fused_available).groups.length = 2 ∧
    (∀ p, p ∈ params.filter (fun q => q.requires_grad) →
      ((p ∈ (((configure_optimizers params wd lr device fused_available).groups.getD 0
          { params := [], weight_decay := 0 }).params) ↔ 2 ≤ p.dim) ∧
       (p ∈ (((configure_optimizers params wd lr device fused_available).groups.getD 1
          { params := [], weight_decay := 0 }).params) ↔ p.dim < 2))) ∧
    List.Perm
      ((((configure_optimizers params wd lr device fused_available).groups.getD 0
          { params := [], weight_decay := 0 }).params) ++
       (((configure_optimizers params wd lr device fused_available).groups.getD 1
          { params := [], weight_decay := 0 }).params))
      (params.filter (fun q => q.requires_grad)) ∧
    ((configure_optimizers params wd lr device fused_available).groups.getD 0
        { params := [], weight_decay := 0 }).weight_decay = wd ∧
    ((configure_optimizers params wd lr device fused_available).groups.getD 1
        { params := [], weight_decay := 0 }).weight_decay = 0 ∧
    (configure_optimizers params wd lr device fused_available).beta1 = 0.9 ∧
    (configure_optimizers params wd lr device fused_available).beta2 = 0.95 ∧
    (configure_optimizers params wd lr device fused_available).eps = 1e-8 ∧
    ((configure_optimizers params wd lr device fused_available).fused = true ↔
      fused_available = true ∧ pyIn "cuda" device = true) := by
  refine ⟨rfl, ?_, ?_, rfl, rfl, rfl, rfl, rfl, ?_⟩
  · intro p hp
    constructor
    · show p ∈ (params.filter _).filter _ ↔ _
      rw [List.mem_filter]
      simp [hp]
    · show p ∈ (params.filter _).filter _ ↔ _
      rw [List.mem_filter]
      simp [hp]
  · show List.Perm (((params.filter (fun q => q.requires_grad)).filter (fun p => 2 ≤ p.dim)) ++
        ((params.filter (fun q => q.requires_grad)).filter (fun p => p.dim < 2)))
      (params.filter (fun q => q.requires_grad))
    have h2 : (params.filter (fun q => q.requires_grad)).filter (fun p => p.dim < 2)
        = (params.filter (fun q => q.requires_grad)).filter (fun p => !(2 ≤ p.dim : Bool)) := by
      apply List.filter_congr
      intro x _
      simp only [← decide_not, decide_eq_decide]
      omega
    rw [h2]
    exact List.filter_append_perm _ _
  · show (fused_available && pyIn "cuda" device) = true ↔ _
    simp

/-- C7 witness: a rank-2 trainable tensor lands in the decay group, a
rank-1 one in the no-decay group; on device `"cuda:0"` with fused support
the fused path is enabled. -/
theorem C7_configure_optimizers_witness :
    ((⟨"wte.weight", 2, 6, true⟩ : ParamTensor)
        ∈ [(⟨"wte.weight", 2, 6, true⟩ : ParamTensor),
           ⟨"ln.bias", 1, 3, true⟩].filter (fun q => q.requires_grad)) ∧
    ((⟨"wte.weight", 2, 6, true⟩ : ParamTensor)
        ∈ ((configure_optimizers
              [⟨"wte.weight", 2, 6, true⟩, ⟨"ln.bias", 1, 3, true⟩]
              0.1 0.0006 "cuda:0" true).groups.getD 0
            { params := [], weight_decay := 0 }).params
      ↔ 2 ≤ (⟨"wte.weight", 2, 6, true⟩ : ParamTensor).dim) ∧
    ((configure_optimizers [⟨"wte.weight", 2, 6, true⟩, ⟨"ln.bias", 1, 3, true⟩]
        0.1 0.0006 "cuda:0" true).fused = true ↔
      true = true ∧ pyIn "cuda" "cuda:0" = true) :=
  ⟨by decide,
    ((C7_configure_optimizers [⟨"wte.weight", 2, 6, true⟩, ⟨"ln.bias", 1, 3, true⟩]
        0.1 0.0006 "cuda:0" true).2.1 _ (by decide)).1,
    (C7_configure_optimizers [⟨"wte.weight", 2, 6, true⟩, ⟨"ln.bias", 1, 3, true⟩]
        0.1 0.0006 "cuda:0" true).2.2.2.2.2.2.2.2⟩

/-- C8 (code bug): at the first sampling gate (step 100) the script
evaluates `42 + dpp_rank`, but no assignment in the script binds
`dpp_rank` (the rank variable is `ddp_rank`), so name resolution raises a
`NameError` for every worker instead of completing; the intended seed
`42 + ddp_rank` would have resolved. -/
theorem C8_sampling_seed_name_error
    (ddp_rank ddp_local_rank ddp_world_size grad_accum step : ℤ) :
    samplingGateRuns 100 = true ∧ samplingGateRuns 0 = false ∧
    sample_seed (scriptIntEnv ddp_rank ddp_local_rank ddp_world_size grad_accum step)
      = Except.error "NameError: name dpp_rank is not defined" ∧
    lookupName (scriptIntEnv ddp_rank ddp_local_rank ddp_world_size grad_accum step)
        "ddp_rank"
      = Except.ok ddp_rank :=
  ⟨rfl, rfl, rfl, rfl⟩

/-- C9 (code bug): the reported `tokens_per_sec` divides the processed
tokens by `dt = (t1-t0)*1000` (milliseconds), so it is always 1/1000 of
tokens per second; at `B=8, T=1024, grad_accum_Steps=64, world_size=1` and
one second elapsed it reports `524.288` where tokens/sec is `524288`. -/
theorem C9_throughput_divergence :
    (∀ (B T ga w : ℕ) (t0 t1 : ℚ),
      tokens_per_sec_reported B T ga w t0 t1 = claimed_tokens_per_sec B T ga w t0 t1 / 1000) ∧
    tokens_per_sec_reported 8 1024 64 1 0 1 = 524288 / 1000 ∧
    claimed_tokens_per_sec 8 1024 64 1 0 1 = 524288 ∧
    tokens_per_sec_reported 8 1024 64 1 0 1 ≠ claimed_tokens_per_sec 8 1024 64 1 0 1 := by
  refine ⟨?_, ?_, ?_, ?_⟩
  · intro B T ga w t0 t1
    rw [tokens_per_sec_reported, claimed_tokens_per_sec, dt_ms, div_div]
  · norm_num [tokens_per_sec_reported, dt_ms, tokens_processed]
  · norm_num [claimed_tokens_per_sec, tokens_processed]
  · norm_num [tokens_per_sec_reported, claimed_tokens_per_sec, dt_ms, tokens_processed]

/-- C5: for every rectangular token-id matrix of shape `(B, T)` (valid ids
below `vocab_size`): if `T ≤ block_size` the forward pass returns logits of
shape `(B, T, vocab_size)` plus a scalar loss exactly when a target matrix
is given; and the forward pass fails with a precondition violation exactly
when `T` exceeds `block_size`. -/
theorem C5_forward_contract (P : NumPrims) (p : GPTP) (idx : List (List ℕ))
    (targets : Option (List (List ℕ))) (hwf : p.wf)
    (hrect : ∀ row ∈ idx, row.length = (idx.getD 0 []).length)
    (hids : ∀ row ∈ idx, ∀ id ∈ row, id < p.config.vocab_size) :
    ((idx.getD 0 []).length ≤ p.config.block_size →
      ∃ logits loss, gptForward P p idx targets = Except.ok (logits, loss) ∧
        logits.length = idx.length ∧
        (∀ l ∈ logits, l.length = (idx.getD 0 []).length ∧
          ∀ r ∈ l, r.length = p.config.vocab_size) ∧
        (loss.isSome ↔ targets.isSome)) ∧
    (p.config.block_size < (idx.getD 0 []).length →
      gptForward P p idx targets
        = Except.error "Cannot forward sequence, length exceeds block size") ∧
    (∀ logits loss, gptForward P p idx targets = Except.ok (logits, loss) →
      (idx.getD 0 []).length ≤ p.config.block_size) := by
  refine ⟨fun hT => gptForward_ok_shape P hwf targets hrect hids hT,
    fun hT => gptForward_error P p idx targets (by omega), ?_⟩
  intro logits loss hok
  by_contra hT
  rw [gptForward_error P p idx targets hT] at hok
  exact Except.noConfusion hok

/-- C5 witness: the tiny tied model (`block_size` 2, `vocab_size` 3)
succeeds on the `1×2` input `[[0, 1]]` with `1×2×3` logits and no loss, and
fails on the too-long `1×3` input `[[0, 1, 2]]`. -/
theorem C5_forward_contract_witness :
    testGPT.wf ∧
    (∃ logits loss, gptForward testPrims testGPT [[0, 1]] none = Except.ok (logits, loss) ∧
      logits.length = 1 ∧
      (∀ l ∈ logits, l.length = 2 ∧ ∀ r ∈ l, r.length = 3) ∧
      (loss.isSome ↔ (none : Option (List (List ℕ))).isSome)) ∧
    gptForward testPrims testGPT [[0, 1, 2]] none
      = Except.error "Cannot forward sequence, length exceeds block size" :=
  ⟨testGPT_wf,
    (C5_forward_contract testPrims testGPT [[0, 1]] none testGPT_wf
      (by decide) (by decide)).1 (by decide),
    (C5_forward_contract testPrims testGPT [[0, 1, 2]] none testGPT_wf
      (by decide) (by decide)).2.1 (by decide)⟩

/-- C10: the training-path model is constructed with the padded vocabulary
size 50304 (not the tokenizer's 50257), so every successful forward pass
over it yields logits rows of length 50304 while every shard token id below
50257 is still a valid row index; only `from_pretrained` constructs
configurations with `vocab_size = 50257`. -/
theorem C10_padded_vocab :
    trainingModelConfig.vocab_size = 50304 ∧
    (∀ (P : NumPrims) (p : GPTP) (idx : List (List ℕ))
        (targets : Option (List (List ℕ))),
      p.config = trainingModelConfig → p.wf →
      (∀ row ∈ idx, row.length = (idx.getD 0 []).length) →
      (∀ row ∈ idx, ∀ id ∈ row, id < 50257) →
      (idx.getD 0 []).length ≤ p.config.block_size →
      ∃ logits loss, gptForward P p idx targets = Except.ok (logits, loss) ∧
        ∀ l ∈ logits, ∀ r ∈ l, r.length = 50304) ∧
    (∀ id : ℕ, id < 50257 → id < trainingModelConfig.vocab_size) ∧
    (∀ mt cfg, pretrainedConfig mt = some cfg → cfg.vocab_size = 50257) := by
  refine ⟨rfl, ?_, ?_, ?_⟩
  · intro P p idx targets hcfg hwf hrect hids hT
    have hv : p.config.vocab_size = 50304 := by rw [hcfg]; rfl
    obtain ⟨logits, loss, hok, _, hrows, _⟩ :=
      gptForward_ok_shape P hwf targets hrect
        (fun row hrow id hid => by
          have := hids row hrow id hid
          omega) hT
    refine ⟨logits, loss, hok, fun l hl r hr => ?_⟩
    rw [(hrows l hl).2 r hr, hv]
  · intro id h
    show id < 50304
    omega
  · intro mt cfg h
    rw [pretrainedConfig] at h
    rcases h2 : pretrainedConfigArgs mt with _ | args <;> rw [h2] at h
    · exact Option.noConfusion h
    · simp only [Option.map_some'] at h
      injection h with h3
      rw [← h3]

/-- C10 witness: the zero model over the training configuration forwards
`[[0]]` to logits rows of length 50304, and `pretrainedConfig "gpt2"` has
vocabulary size 50257. -/
theorem C10_padded_vocab_witness :
    trainGPT.config = trainingModelConfig ∧
    (∃ logits loss, gptForward testPrims trainGPT [[0]] none
        = Except.ok (logits, loss) ∧
      ∀ l ∈ logits, ∀ r ∈ l, r.length = 50304) ∧
    pretrainedConfig "gpt2" = some (⟨1024, 50257, 12, 12, 768⟩ : GPTConfig) ∧
    GPTConfig.vocab_size (⟨1024, 50257, 12, 12, 768⟩ : GPTConfig) = 50257 :=
  ⟨rfl,
    C10_padded_vocab.2.1 testPrims trainGPT [[0]] none rfl trainGPT_wf
      (by decide) (by decide) (by decide),
    rfl,
    C10_padded_vocab.2.2.2 "gpt2" _ rfl⟩

/-- C4: after construction the wte attribute and the lm_head attribute
reference one shared tensor, so a row write through either is read back
through the other in every store state; logits of row `v` evaluate against
the freshly written row; any write that changes the row's inner product
with the hidden state changes that row's logit; and any genuine row change
changes the logit function (witnessed by some hidden state). -/
theorem C4_weight_tying :
    gptInitRefs.wte_weight = gptInitRefs.lm_head_weight ∧
    (∀ (st : Store) (v : ℕ) (row : List ℚ),
      v < (st gptInitRefs.lm_head_weight).length →
      (readRow (setWteRow st v row) gptInitRefs.lm_head_weight v = row ∧
       wteRow (setLmHeadRow st v row) v = row)) ∧
    (∀ (st : Store) (v : ℕ) (row h : List ℚ),
      v < (st gptInitRefs.lm_head_weight).length →
      logitRow (setWteRow st v row) h v = dotQ row h) ∧
    (∀ (st : Store) (v : ℕ) (row h : List ℚ),
      v < (st gptInitRefs.lm_head_weight).length →
      dotQ row h ≠ dotQ (wteRow st v) h →
      logitRow (setWteRow st v row) h v ≠ logitRow st h v) ∧
    (∀ (st : Store) (v : ℕ) (row : List ℚ),
      v < (st gptInitRefs.lm_head_weight).length →
      row.length = (wteRow st v).length → row ≠ wteRow st v →
      ∃ h, logitRow (setWteRow st v row) h v ≠ logitRow st h v) := by
  have halias : gptInitRefs.wte_weight = gptInitRefs.lm_head_weight := rfl
  have hread : ∀ (st : Store) (v : ℕ) (row : List ℚ),
      v < (st gptInitRefs.lm_head_weight).length →
      readRow (setWteRow st v row) gptInitRefs.lm_head_weight v = row := by
    intro st v row hv
    show ((writeRow st gptInitRefs.lm_head_weight v row)
      gptInitRefs.lm_head_weight).getD v [] = row
    rw [writeRow]
    simp only [if_pos rfl]
    exact set_getD row hv
  have hlogit : ∀ (st : Store) (v : ℕ) (row h : List ℚ),
      v < (st gptInitRefs.lm_head_weight).length →
      logitRow (setWteRow st v row) h v = dotQ row h := by
    intro st v row h hv
    rw [logitRow, hread st v row hv]
  refine ⟨halias, fun st v row hv => ⟨hread st v row hv, hread st v row hv⟩,
    hlogit, ?_, ?_⟩
  · intro st v row h hv hne
    rw [hlogit st v row h hv]
    exact fun hc => hne hc
  · intro st v row hv hlen hne
    obtain ⟨j, hj, hne2⟩ := exists_getD_ne hlen hne
    refine ⟨unitVec row.length j, ?_⟩
    rw [hlogit st v row _ hv, dotQ_unitVec rfl hj]
    show _ ≠ dotQ (wteRow st v) _
    rw [dotQ_unitVec (by omega) hj]
    exact hne2

/-- C4 witness: on a concrete 3×2 store, overwriting embedding row 1 with
`[7, 8]` is observed by the head (the logit at hidden state `[1, 0]`
becomes `⟨[7,8],[1,0]⟩`), and the logit changes from its old value. -/
theorem C4_weight_tying_witness :
    (1 : ℕ) < (c4Store gptInitRefs.lm_head_weight).length ∧
    logitRow (setWteRow c4Store 1 [7, 8]) [1, 0] 1 = dotQ [7, 8] [1, 0] ∧
    dotQ [7, 8] [1, 0] ≠ dotQ (wteRow c4Store 1) [1, 0] ∧
    logitRow (setWteRow c4Store 1 [7, 8]) [1, 0] 1 ≠ logitRow c4Store [1, 0] 1 :=
  ⟨by decide, C4_weight_tying.2.2.1 c4Store 1 [7, 8] [1, 0] (by decide),
    by norm_num [dotQ, wteRow, readRow, c4Store, gptInitRefs],
    C4_weight_tying.2.2.2.1 c4Store 1 [7, 8] [1, 0] (by decide)
      (by norm_num [dotQ, wteRow, readRow, c4Store, gptInitRefs])⟩

end TrainGPT2
